import Mathlib

/-!
Verification of the git process-orchestration layer of mob (src/tools/git.cpp,
src/tools/git.h).

The development shallowly embeds the command layer (pure builders producing
process invocations), the repository wrapper (`git_wrap`), the task-facing
`git` tool, and the background submodule adder.  External collaborators that
are not part of the sources (the process primitive in src/core/process, the
configuration in src/core/conf, `op::delete_directory` in src/core/op, and
the behaviour of the external git executable itself) are modelled explicitly,
following the specification, and are marked as such in their doc comments.

Machine state is passed explicitly: every wrapper operation takes the ambient
environment, the working-tree root and an abstract repository state, and
returns the operation result (`Except Bail`), the resulting repository state,
and the ordered list of process invocations it spawned.
-/

/-- Environment of a process: an association list of variable/value pairs. -/
abbrev Env := List (String × String)

/-- `env::set`: sets a variable, overriding any previous value. -/
def envSet (e : Env) (k v : String) : Env :=
  (k, v) :: e.filter (fun q => q.1 != k)

/-- Looks a variable up in an environment; the most recent `envSet` wins. -/
def envGet (e : Env) (k : String) : Option String :=
  (e.find? (fun q => q.1 == k)).map (fun q => q.2)

/-- `context::level`: the log levels used by the command layer. -/
inductive level where
  | trace
  | debug
deriving DecidableEq, Repr

/-- Process flags (`process::allow_failure`). -/
inductive pflag where
  | allow_failure
deriving DecidableEq, Repr

/-- Stream flags (`process::keep_in_string`). -/
inductive sflag where
  | keep_in_string
deriving DecidableEq, Repr

/--
A fully built external-process invocation, as produced by the command layer
(the `process` class of src/core/process is external; only the parts of its
builder interface used by git.cpp are embedded).  Per-argument logging flags
(`process::log_quiet`) and path formatting flags (`process::forward_slashes`)
only affect logging and argument rendering, so they are not tracked; the
argument text itself is.  The single stderr filter used by git.cpp (the one
installed by `details::is_repo`, which downgrades the "not a git repo" line
to trace level) is tracked by a boolean marker so that invocations stay
decidably comparable.
-/
structure process where
  binary : String := ""
  env : Env := []
  args : List String := []
  cwdDir : Option String := none
  stdinPayload : Option String := none
  allowFailure : Bool := false
  keepStdoutInString : Bool := false
  stdoutLv : Option level := none
  stderrLv : Option level := none
  notARepoFilter : Bool := false
deriving DecidableEq, Repr

/-- `process::arg` with a single argument. -/
def process.arg (p : process) (a : String) : process :=
  { p with args := p.args ++ [a] }

/-- `process::arg` with two arguments (key/value style, e.g. `-c foo=bar`). -/
def process.arg2 (p : process) (a b : String) : process :=
  { p with args := p.args ++ [a, b] }

/-- `process::cwd`. -/
def process.cwd (p : process) (d : String) : process :=
  { p with cwdDir := some d }

/-- `process::flags`. -/
def process.flags (p : process) (f : pflag) : process :=
  match f with
  | .allow_failure => { p with allowFailure := true }

/-- `process::stdout_flags`. -/
def process.stdout_flags (p : process) (f : sflag) : process :=
  match f with
  | .keep_in_string => { p with keepStdoutInString := true }

/-- `process::stdout_level`. -/
def process.stdout_level (p : process) (lv : level) : process :=
  { p with stdoutLv := some lv }

/-- `process::stderr_level`. -/
def process.stderr_level (p : process) (lv : level) : process :=
  { p with stderrLv := some lv }

/-- `process::stderr_filter` as used by `details::is_repo`. -/
def process.stderr_filter (p : process) : process :=
  { p with notARepoFilter := true }

/-- `process::stdin_string`. -/
def process.stdin_string (p : process) (s : String) : process :=
  { p with stdinPayload := some s }

namespace details

/--
`details::make_process`: creates the basic git process used by every builder.
The binary is `git_wrap::binary()` (the configured path to the git
executable, from src/core/conf which is external; modelled as the literal
"git").  The ambient process environment (`this_env::get()`) is a parameter;
the two overrides disable the credentials UI and all terminal prompts.
-/
def make_process (amb : Env) : process :=
  { binary := "git",
    env := envSet (envSet amb "GCM_INTERACTIVE" "never") "GIT_TERMINAL_PROMPT" "0" }

/-- `details::init`. -/
def init (amb : Env) (root : String) : process :=
  ((make_process amb).arg "init").cwd root

/-- `details::set_config`. -/
def set_config (amb : Env) (root key value : String) : process :=
  ((((make_process amb).stderr_level .trace).arg "config").arg key |>.arg value).cwd
    root

/-- `details::apply`. -/
def apply (amb : Env) (root diff : String) : process :=
  (((((make_process amb).stdin_string diff).arg "apply").arg2 "--whitespace"
        "nowarn").arg "-").cwd root

/-- `details::fetch`. -/
def fetch (amb : Env) (root remote branch : String) : process :=
  (((((make_process amb).arg "fetch").arg "-q").arg remote).arg branch).cwd root

/-- `details::checkout`. -/
def checkout (amb : Env) (root what : String) : process :=
  (((((make_process amb).arg2 "-c" "advice.detachedHead=false").arg
          "checkout").arg "-q").arg what).cwd root

/-- `details::revert`. -/
def revert (amb : Env) (root file : String) : process :=
  ((((make_process amb).stderr_level .trace).arg "checkout").arg file).cwd root

/-- `details::current_branch`. -/
def current_branch (amb : Env) (root : String) : process :=
  ((((make_process amb).stdout_flags .keep_in_string).arg "branch").arg
        "--show-current").cwd root

/-- `details::add_submodule`. -/
def add_submodule (amb : Env) (root branch submodule url : String) : process :=
  (((make_process amb).stderr_level .trace).arg2 "-c" "core.autocrlf=false"
      |>.arg "submodule" |>.arg "--quiet" |>.arg "add" |>.arg2 "-b" branch
      |>.arg "--force" |>.arg2 "--name" submodule |>.arg url
      |>.arg submodule).cwd root

/-- `details::clone`: always recurses submodules, adds a depth of 1 only when
`shallow` is requested. -/
def clone (amb : Env) (root url branch : String) (shallow : Bool) : process :=
  let p := ((make_process amb).stderr_level .trace).arg "clone" |>.arg
    "--recurse-submodules"
  let p := if shallow then p.arg2 "--depth" "1" else p
  (p.arg2 "--branch" branch |>.arg "--quiet"
      |>.arg2 "-c" "advice.detachedHead=false" |>.arg url |>.arg root)

/-- `details::pull`. -/
def pull (amb : Env) (root url branch : String) : process :=
  ((make_process amb).arg "pull" |>.arg "--recurse-submodules" |>.arg "--quiet"
      |>.arg url |>.arg branch).cwd root

/-- `details::has_remote`: probes `remote.<name>.url`; tolerates failure. -/
def has_remote (amb : Env) (root name : String) : process :=
  (((((make_process amb).flags .allow_failure).stderr_level .debug).arg
          "config").arg ("remote." ++ name ++ ".url")).cwd root

/-- `details::rename_remote`. -/
def rename_remote (amb : Env) (root a b : String) : process :=
  ((make_process amb).arg "remote" |>.arg "rename" |>.arg a |>.arg b).cwd root

/-- `details::add_remote`. -/
def add_remote (amb : Env) (root name url : String) : process :=
  ((make_process amb).arg "remote" |>.arg "add" |>.arg name |>.arg url).cwd root

/-- `details::set_remote_push`. -/
def set_remote_push (amb : Env) (root remote url : String) : process :=
  ((make_process amb).arg "remote" |>.arg "set-url" |>.arg "--push"
      |>.arg remote |>.arg url).cwd root

/-- `details::set_assume_unchanged`. -/
def set_assume_unchanged (amb : Env) (root file : String) (b : Bool) : process :=
  ((make_process amb).arg "update-index"
      |>.arg (if b then "--assume-unchanged" else "--no-assume-unchanged")
      |>.arg file).cwd root

/-- `details::is_tracked`: tolerates failure (file not tracked is a valid
outcome, signalled by nonzero exit). -/
def is_tracked (amb : Env) (root file : String) : process :=
  ((((make_process amb).stdout_level .debug).stderr_level .debug).flags
        .allow_failure |>.arg "ls-files" |>.arg "--error-unmatch"
      |>.arg file).cwd root

/-- `details::is_repo`: tolerates failure and downgrades the "not a git repo"
stderr line to trace level. -/
def is_repo (amb : Env) (root : String) : process :=
  ((((make_process amb).arg "rev-parse").arg
          "--is-inside-work-tree").stderr_filter.flags .allow_failure).cwd root

/-- `details::remote_branch_exists`: probes remotely, no working directory. -/
def remote_branch_exists (amb : Env) (url branch : String) : process :=
  ((make_process amb).flags .allow_failure |>.arg "ls-remote"
      |>.arg "--exit-code" |>.arg "--heads" |>.arg url |>.arg branch)

/-- `details::has_uncommitted_changes`: captures stdout, tolerates failure. -/
def has_uncommitted_changes (amb : Env) (root : String) : process :=
  ((((make_process amb).flags .allow_failure).stdout_flags
          .keep_in_string).arg "status" |>.arg "-s" |>.arg "--porcelain").cwd
    root

/-- `details::has_stashed_changes`: tolerates failure; note that the source
passes the single argument "stash show". -/
def has_stashed_changes (amb : Env) (root : String) : process :=
  ((((make_process amb).flags .allow_failure).stderr_level .trace).arg
        "stash show").cwd root

/-- `details::remote_url`: captures the url of the `origin` remote. -/
def remote_url (amb : Env) (root : String) : process :=
  ((((make_process amb).stdout_flags .keep_in_string).arg "remote").arg
        "get-url" |>.arg "origin").cwd root

/-- `details::make_url`: formats the remote URL from the org and the git
file.  The format-string default of the source corresponds to the function
appending "git@github.com:", the org, a slash, and the git file. -/
def make_url (org git_file : String) (url_pattern : Option (String → String → String)) :
    String :=
  (url_pattern.getD (fun o g => "git@github.com:" ++ o ++ "/" ++ g)) org git_file

end details

/-- A bail-out (`bailed`), the fatal error of the error taxonomy.  The
message is kept as a character list so that statements about its content
stay kernel-friendly. -/
structure Bail where
  msg : List Char
deriving DecidableEq, Repr

/--
Modelled from the spec: the process primitive (src/core/process, not under
src/) runs an invocation, returns its exit code, and escalates a nonzero
exit to a fatal bail unless the `allow_failure` flag is set on the
invocation.
-/
def runExit (p : process) (exitCode : Nat) : Except Bail Nat :=
  if exitCode ≠ 0 ∧ p.allowFailure = false then
    .error ⟨"process failed".data⟩
  else
    .ok exitCode

/-- One entry reported by the recursive directory iteration of
`details::for_each_ts`: the absolute path, the path relative to the root,
whether the entry is a regular file, and the utf8 text of its filesystem
extension. -/
structure FileEntry where
  abs : String
  rel : String
  regular : Bool
  ext : List Char
deriving DecidableEq, Repr

/--
Abstract state of the working tree a `git_wrap` operates on, together with
the outcomes the external git executable would report for the probe
commands.  `statusStdout`/`statusExit` are the captured stdout and the exit
code of the `git status -s --porcelain` invocation; `stashExitZero` is
whether the stash probe exits with 0; `tracked` holds the relative paths git
tracks.
-/
structure Repo where
  isRepo : Bool := true
  dotGitExists : Bool := true
  remotes : List (String × String) := []
  pushUrls : List (String × String) := []
  config : List (String × String) := []
  statusStdout : String := ""
  statusExit : Nat := 0
  stashExitZero : Bool := false
  files : List FileEntry := []
  tracked : List String := []
deriving DecidableEq, Repr

/-- Result of a wrapper operation: the value or bail, the repository state
after the operation, and the ordered list of spawned process invocations. -/
abbrev Res (α : Type) := Except Bail α × Repo × List process

/-- Exit code the external git executable reports for
`git config remote.<name>.url`: 0 exactly when the remote exists. -/
def hasRemoteExit (r : Repo) (name : String) : Nat :=
  if (r.remotes.find? (fun q => q.1 == name)).isSome then 0 else 1

/-- Captured stdout and exit code the external git executable reports for
`git remote get-url origin`: the url followed by a newline when the remote
exists, otherwise empty output and a nonzero exit. -/
def remoteUrlOut (r : Repo) : String × Nat :=
  match r.remotes.find? (fun q => q.1 == "origin") with
  | some q => (q.2 ++ "\n", 0)
  | none => ("", 128)

/-- Characters removed by `trim_copy` (whitespace). -/
def isTrimChar (c : Char) : Bool :=
  c == ' ' || c == '\t' || c == '\r' || c == '\n'

/-- `trim_copy`: removes leading and trailing whitespace. -/
def trimCopy (s : List Char) : List Char :=
  ((s.dropWhile isTrimChar).reverse.dropWhile isTrimChar).reverse

/-- `out.substr(out.find_last_of("/") + 1)`: the substring after the last
slash, or `none` when the string holds no slash (`npos`). -/
def afterLastSlash : List Char → Option (List Char)
  | [] => none
  | c :: rest =>
    match afterLastSlash rest with
    | some seg => some seg
    | none => if c == '/' then some rest else none

namespace git_wrap

/-- `git_wrap::has_remote`: spawns the probe; the remote exists exactly when
the exit code is 0.  The probe allows failure, so it never bails. -/
def has_remote (amb : Env) (root name : String) (r : Repo) : Res Bool :=
  let p := details.has_remote amb root name
  match runExit p (hasRemoteExit r name) with
  | .ok e => (.ok (e == 0), r, [p])
  | .error b => (.error b, r, [p])

/-- The parsing part of `git_wrap::git_file` (src/tools/git.cpp:465-487):
takes the captured get-url output, extracts the component after the last
slash, trims it, and bails when there is no slash or the trimmed component
is empty. -/
def git_file_parse (out : List Char) : Except Bail (List Char) :=
  match afterLastSlash out with
  | none => .error ⟨"bad get-url output ".data ++ out⟩
  | some seg =>
    let s := trimCopy seg
    if s = [] then .error ⟨"bad get-url output ".data ++ out⟩ else .ok s

/-- `git_wrap::git_file`: spawns `git remote get-url origin` (which escalates
failure, since the invocation does not allow failure) and parses the
captured output. -/
def git_file (amb : Env) (root : String) (r : Repo) : Res (List Char) :=
  let p := details.remote_url amb root
  let o := remoteUrlOut r
  match runExit p o.2 with
  | .error b => (.error b, r, [p])
  | .ok _ =>
    match git_file_parse o.1.data with
    | .error b => (.error b, r, [p])
    | .ok s => (.ok s, r, [p])

/-- `git_wrap::rename_remote`: spawns the rename; the external git renames
the remote when it exists and fails otherwise (escalated, the invocation
does not allow failure). -/
def rename_remote (amb : Env) (root a b : String) (r : Repo) : Res Unit :=
  let p := details.rename_remote amb root a b
  let exitCode := if (r.remotes.find? (fun q => q.1 == a)).isSome then 0 else 3
  match runExit p exitCode with
  | .error e => (.error e, r, [p])
  | .ok _ =>
    (.ok (),
      { r with remotes := r.remotes.map (fun q => if q.1 == a then (b, q.2) else q) },
      [p])

/-- `git_wrap::set_remote_push`: spawns the set-url and records the push
url. -/
def set_remote_push (amb : Env) (root remote url : String) (r : Repo) : Res Unit :=
  let p := details.set_remote_push amb root remote url
  (.ok (), { r with pushUrls := envSet r.pushUrls remote url }, [p])

/-- `git_wrap::set_config`: spawns `git config key value` and records the
configuration value. -/
def set_config (amb : Env) (root key value : String) (r : Repo) : Res Unit :=
  let p := details.set_config amb root key value
  (.ok (), { r with config := envSet r.config key value }, [p])

/--
`git_wrap::add_remote` (src/tools/git.cpp:412-430).  The source reads

  `auto gf = opt_git_file.value_or(git_file());`

and `std::optional::value_or` evaluates its argument eagerly, so
`git_file()` — which spawns `git remote get-url origin` — runs
unconditionally, before the `has_remote` check and even when an explicit
git file was supplied; only its result is discarded in that case.
-/
def add_remote (amb : Env) (root name org key : String) (push_default : Bool)
    (url_pattern : Option (String → String → String))
    (opt_git_file : Option String) (r : Repo) : Res Unit :=
  match git_file amb root r with
  | (.error b, r0, t0) => (.error b, r0, t0)
  | (.ok lookedUp, r0, t0) =>
    let gf := opt_git_file.getD (String.mk lookedUp)
    match has_remote amb root name r0 with
    | (.error b, r1, t1) => (.error b, r1, t0 ++ t1)
    | (.ok true, r1, t1) => (.ok (), r1, t0 ++ t1)
    | (.ok false, r1, t1) =>
      let p := details.add_remote amb root name (details.make_url org gf url_pattern)
      let r2 := { r1 with remotes := r1.remotes ++
          [(name, details.make_url org gf url_pattern)] }
      let t2 := t0 ++ t1 ++ [p]
      match (if push_default then set_config amb root "remote.pushdefault" name r2
             else (.ok (), r2, [])) with
      | (.error b, r3, t3) => (.error b, r3, t2 ++ t3)
      | (.ok _, r3, t3) =>
        match (if key != "" then
                 set_config amb root ("remote." ++ name ++ ".puttykeyfile") key r3
               else (.ok (), r3, [])) with
        | (.error b, r4, t4) => (.error b, r4, t2 ++ t3 ++ t4)
        | (.ok _, r4, t4) => (.ok (), r4, t2 ++ t3 ++ t4)

/--
`git_wrap::set_origin_and_upstream_remotes` (src/tools/git.cpp:331-348):
no-op when an `upstream` remote exists; otherwise captures the git file from
the `origin` url, renames `origin` to `upstream`, optionally disables push
on `upstream`, and adds a fresh `origin` remote, passing the captured git
file along.
-/
def set_origin_and_upstream_remotes (amb : Env) (root org key : String)
    (no_push_upstream push_default_origin : Bool) (r : Repo) : Res Unit :=
  match has_remote amb root "upstream" r with
  | (.error b, r0, t0) => (.error b, r0, t0)
  | (.ok true, r0, t0) => (.ok (), r0, t0)
  | (.ok false, r0, t0) =>
    match git_file amb root r0 with
    | (.error b, r1, t1) => (.error b, r1, t0 ++ t1)
    | (.ok gf, r1, t1) =>
      match rename_remote amb root "origin" "upstream" r1 with
      | (.error b, r2, t2) => (.error b, r2, t0 ++ t1 ++ t2)
      | (.ok _, r2, t2) =>
        match (if no_push_upstream then
                 set_remote_push amb root "upstream" "nopushurl" r2
               else (.ok (), r2, [])) with
        | (.error b, r3, t3) => (.error b, r3, t0 ++ t1 ++ t2 ++ t3)
        | (.ok _, r3, t3) =>
          match add_remote amb root "origin" org key push_default_origin none
              (some (String.mk gf)) r3 with
          | (.error b, r4, t4) => (.error b, r4, t0 ++ t1 ++ t2 ++ t3 ++ t4)
          | (.ok _, r4, t4) => (.ok (), r4, t0 ++ t1 ++ t2 ++ t3 ++ t4)

/-- `git_wrap::set_credentials`: sets "user.name" and "user.email" when
nonempty. -/
def set_credentials (amb : Env) (root username email : String) (r : Repo) : Res Unit :=
  match (if username != "" then set_config amb root "user.name" username r
         else (.ok (), r, [])) with
  | (.error b, r0, t0) => (.error b, r0, t0)
  | (.ok _, r0, t0) =>
    match (if email != "" then set_config amb root "user.email" email r0
           else (.ok (), r0, [])) with
    | (.error b, r1, t1) => (.error b, r1, t0 ++ t1)
    | (.ok _, r1, t1) => (.ok (), r1, t0 ++ t1)

/-- The working tree the external git leaves behind after a successful
clone: the `.git` marker exists, the tree is a repository, and its single
remote is `origin` at the cloned url. -/
def clonedRepo (url : String) (r : Repo) : Repo :=
  { r with dotGitExists := true, isRepo := true, remotes := [("origin", url)] }

/-- `git_wrap::clone`: spawns the clone; on success the external git creates
the working tree. -/
def clone (amb : Env) (root url branch : String) (shallow : Bool) (r : Repo) :
    Res Unit :=
  (.ok (), clonedRepo url r, [details.clone amb root url branch shallow])

/-- `git_wrap::pull`: spawns the pull. -/
def pull (amb : Env) (root url branch : String) (r : Repo) : Res Unit :=
  (.ok (), r, [details.pull amb root url branch])

/-- The entries `details::for_each_ts` visits: regular files whose extension
ends with ".ts". -/
def tsEntries (files : List FileEntry) : List FileEntry :=
  files.filter (fun e => e.regular && List.isSuffixOf ".ts".data e.ext)

/-- The invocations `git_wrap::ignore_ts` spawns for the given entries: per
entry an `is_tracked` probe, then — only when the relative path is tracked —
the `update-index` toggle; untracked entries are only logged. -/
def ignoreTsTrace (amb : Env) (root : String) (tracked : List String) (b : Bool) :
    List FileEntry → List process
  | [] => []
  | e :: rest =>
    details.is_tracked amb root e.rel ::
      ((if e.rel ∈ tracked then [details.set_assume_unchanged amb root e.rel b]
        else []) ++ ignoreTsTrace amb root tracked b rest)

/-- `git_wrap::ignore_ts`: enumerates the .ts files and toggles the
assume-unchanged flag on the tracked ones.  Both probe and toggle leave the
repository state unchanged. -/
def ignore_ts (amb : Env) (root : String) (b : Bool) (r : Repo) : Res Unit :=
  (.ok (), r, ignoreTsTrace amb root r.tracked b (tsEntries r.files))

/-- The invocations `git_wrap::revert_ts` spawns: per .ts entry the
`is_tracked` probe on the relative path, then — only when tracked — the
checkout of the absolute path. -/
def revertTsTrace (amb : Env) (root : String) (tracked : List String) :
    List FileEntry → List process
  | [] => []
  | e :: rest =>
    details.is_tracked amb root e.rel ::
      ((if e.rel ∈ tracked then [details.revert amb root e.abs] else []) ++
        revertTsTrace amb root tracked rest)

/-- `git_wrap::revert_ts`. -/
def revert_ts (amb : Env) (root : String) (r : Repo) : Res Unit :=
  (.ok (), r, revertTsTrace amb root r.tracked (tsEntries r.files))

/-- `git_wrap::is_tracked`: the probe allows failure; tracked exactly when
the exit code is 0. -/
def is_tracked (amb : Env) (root file : String) (r : Repo) : Res Bool :=
  let p := details.is_tracked amb root file
  match runExit p (if file ∈ r.tracked then 0 else 1) with
  | .ok e => (.ok (e == 0), r, [p])
  | .error b => (.error b, r, [p])

/-- `git_wrap::is_git_repo`: the probe allows failure; a repository exactly
when the exit code is 0. -/
def is_git_repo (amb : Env) (root : String) (r : Repo) : Res Bool :=
  let p := details.is_repo amb root
  match runExit p (if r.isRepo then 0 else 32) with
  | .ok e => (.ok (e == 0), r, [p])
  | .error b => (.error b, r, [p])

/-- `git_wrap::has_uncommitted_changes` (src/tools/git.cpp:541-546): spawns
the status invocation (which allows failure) and reports whether the
captured stdout is a nonempty string; the exit code plays no role. -/
def has_uncommitted_changes (amb : Env) (root : String) (r : Repo) : Res Bool :=
  let p := details.has_uncommitted_changes amb root
  match runExit p r.statusExit with
  | .ok _ => (.ok (r.statusStdout != ""), r, [p])
  | .error b => (.error b, r, [p])

/-- `git_wrap::has_stashed_changes`: the probe allows failure; stashed
changes exactly when the exit code is 0. -/
def has_stashed_changes (amb : Env) (root : String) (r : Repo) : Res Bool :=
  let p := details.has_stashed_changes amb root
  match runExit p (if r.stashExitZero then 0 else 1) with
  | .ok e => (.ok (e == 0), r, [p])
  | .error b => (.error b, r, [p])

end git_wrap

/-- The flag named by the bail messages of `git_wrap::delete_directory`. -/
def remediationFlag : List Char := "--ignore-uncommitted-changes".data

/-- The bail raised when the tree has uncommitted changes: "will not delete
{dir}, has uncommitted changes; see --ignore-uncommitted-changes". -/
def uncommittedBail (dir : String) : Bail :=
  ⟨"will not delete ".data ++ dir.data ++
    ", has uncommitted changes; see ".data ++ remediationFlag⟩

/-- The bail raised when the tree has stashed changes: "will not delete
{dir}, has stashed changes; see --ignore-uncommitted-changes". -/
def stashedBail (dir : String) : Bail :=
  ⟨"will not delete ".data ++ dir.data ++
    ", has stashed changes; see ".data ++ remediationFlag⟩

/-- An action performed by `git_wrap::delete_directory`: either spawning a
git process or the recursive directory deletion. -/
inductive action where
  | proc (p : process)
  | deleteDir (dir : String)
deriving DecidableEq, Repr

/--
Modelled from the spec: `op::delete_directory` (src/core/op, not under src/)
recursively deletes the working tree, tolerating a "not present" outcome.
Afterwards the tree is gone: no `.git` marker, not a repository, no files,
no remotes.
-/
def deleteEffect (r : Repo) : Repo :=
  { r with isRepo := false, dotGitExists := false, remotes := [], pushUrls := [],
           config := [], statusStdout := "", statusExit := 0,
           stashExitZero := false, files := [], tracked := [] }

namespace git_wrap

/--
`git_wrap::delete_directory` (src/tools/git.cpp:489-529).  `ignoreUncommitted`
is the global configuration value `conf().global().get("ignore_uncommitted")`
(src/core/conf is external).  A fresh `git_wrap` on `dir` probes whether the
directory is a git repository; for repositories, unless the override is set,
the uncommitted-changes check runs first and the stashed-changes check
second, each bailing out (leaving the state untouched) when positive; only
then — or unconditionally for non-repositories — the deletion runs.
-/
def delete_directory (amb : Env) (ignoreUncommitted : Bool) (dir : String)
    (r : Repo) : Except Bail Unit × Repo × List action :=
  match is_git_repo amb dir r with
  | (.error b, r0, t0) => (.error b, r0, t0.map .proc)
  | (.ok isrepo, r0, t0) =>
    if isrepo then
      if ignoreUncommitted = false then
        match has_uncommitted_changes amb dir r0 with
        | (.error b, r1, t1) => (.error b, r1, (t0 ++ t1).map .proc)
        | (.ok true, r1, t1) =>
          (.error (uncommittedBail dir), r1, (t0 ++ t1).map .proc)
        | (.ok false, r1, t1) =>
          match has_stashed_changes amb dir r1 with
          | (.error b, r2, t2) => (.error b, r2, (t0 ++ t1 ++ t2).map .proc)
          | (.ok true, r2, t2) =>
            (.error (stashedBail dir), r2, (t0 ++ t1 ++ t2).map .proc)
          | (.ok false, r2, t2) =>
            (.ok (), deleteEffect r2,
              (t0 ++ t1 ++ t2).map .proc ++ [.deleteDir dir])
      else
        (.ok (), deleteEffect r0, t0.map .proc ++ [.deleteDir dir])
    else
      (.ok (), deleteEffect r0, t0.map .proc ++ [.deleteDir dir])

end git_wrap

/-- `git::ops`: the operation a git tool performs, chosen at construction. -/
inductive ops where
  | clone
  | pull
  | clone_or_pull
deriving DecidableEq, Repr

/-- The configuration of the `git` tool (class `git` of src/tools/git.h),
built by its fluent setters; the defaults are those of the constructor. -/
structure gitTool where
  op : ops
  url : String := ""
  root : String := ""
  branch : String := ""
  ignoreTs : Bool := false
  revertTs : Bool := false
  credsUsername : String := ""
  credsEmail : String := ""
  shallow : Bool := false
  remoteOrg : String := ""
  remoteKey : String := ""
  noPushUpstream : Bool := false
  pushDefaultOrigin : Bool := false
deriving Repr

namespace git

/--
`git::do_clone` (src/tools/git.cpp:643-667): when the `.git` marker already
exists at the root this is a logged no-op returning `false`, spawning
nothing; otherwise it clones, optionally sets credentials, optionally
rewires the origin/upstream remotes, optionally ignores .ts files, and
returns `true`.
-/
def do_clone (amb : Env) (g : gitTool) (r : Repo) : Res Bool :=
  if r.dotGitExists then (.ok false, r, [])
  else
    match git_wrap.clone amb g.root g.url g.branch g.shallow r with
    | (.error b, r0, t0) => (.error b, r0, t0)
    | (.ok _, r0, t0) =>
      match (if g.credsUsername != "" || g.credsEmail != "" then
               git_wrap.set_credentials amb g.root g.credsUsername g.credsEmail r0
             else (.ok (), r0, [])) with
      | (.error b, r1, t1) => (.error b, r1, t0 ++ t1)
      | (.ok _, r1, t1) =>
        match (if g.remoteOrg != "" then
                 git_wrap.set_origin_and_upstream_remotes amb g.root g.remoteOrg
                   g.remoteKey g.noPushUpstream g.pushDefaultOrigin r1
               else (.ok (), r1, [])) with
        | (.error b, r2, t2) => (.error b, r2, t0 ++ t1 ++ t2)
        | (.ok _, r2, t2) =>
          match (if g.ignoreTs then git_wrap.ignore_ts amb g.root true r2
                 else (.ok (), r2, [])) with
          | (.error b, r3, t3) => (.error b, r3, t0 ++ t1 ++ t2 ++ t3)
          | (.ok _, r3, t3) => (.ok true, r3, t0 ++ t1 ++ t2 ++ t3)

/-- `git::do_pull` (src/tools/git.cpp:669-677): optionally reverts .ts files
first, then pulls. -/
def do_pull (amb : Env) (g : gitTool) (r : Repo) : Res Unit :=
  match (if g.revertTs then git_wrap.revert_ts amb g.root r
         else (.ok (), r, [])) with
  | (.error b, r0, t0) => (.error b, r0, t0)
  | (.ok _, r0, t0) =>
    match git_wrap.pull amb g.root g.url g.branch r0 with
    | (.error b, r1, t1) => (.error b, r1, t0 ++ t1)
    | (.ok _, r1, t1) => (.ok (), r1, t0 ++ t1)

/--
`git::do_run` (src/tools/git.cpp:614-641): bails out before spawning
anything when the url or the root is empty; otherwise dispatches on the
operation, with `clone_or_pull` falling through to a pull exactly when the
clone reported the no-op outcome.
-/
def do_run (amb : Env) (g : gitTool) (r : Repo) : Res Unit :=
  if g.url = "" ∨ g.root = "" then
    (.error ⟨"git missing parameters".data⟩, r, [])
  else
    match g.op with
    | .clone =>
      match do_clone amb g r with
      | (.error b, r0, t0) => (.error b, r0, t0)
      | (.ok _, r0, t0) => (.ok (), r0, t0)
    | .pull => do_pull amb g r
    | .clone_or_pull =>
      match do_clone amb g r with
      | (.error b, r0, t0) => (.error b, r0, t0)
      | (.ok false, r0, t0) =>
        match do_pull amb g r0 with
        | (.error b, r1, t1) => (.error b, r1, t0 ++ t1)
        | (.ok _, r1, t1) => (.ok (), r1, t0 ++ t1)
      | (.ok true, r0, t0) => (.ok (), r0, t0)

end git

/-- The worker thread position inside `git_submodule_adder::thread_fun` and
`git_submodule_adder::process`. -/
inductive WPhase where
  /-- About to evaluate the `while (!quit_)` condition. -/
  | loopTop
  /-- Waiting on the condition variable, guarded by `sleeper_.ready`. -/
  | sleeping
  /-- Woken up, about to run the `if (quit_) break;` check. -/
  | checkQuit
  /-- Inside `process()`, iterating over the drained batch. -/
  | running
  /-- The thread function returned; a join now completes. -/
  | stopped
deriving DecidableEq, Repr

/--
Shared state of `git_submodule_adder`.  Queued requests are identified by
the order in which their `queue()` call appended them (`nextId` numbers
them); `queued` is `queue_`, `batch` is the local vector `process()` swapped
the queue into, `processed` lists the requests attempted so far in order,
`ready` is `sleeper_.ready` and `quit` is `quit_`.
-/
structure AdderState where
  queued : List Nat := []
  batch : List Nat := []
  processed : List Nat := []
  ready : Bool := false
  quit : Bool := false
  phase : WPhase := .loopTop
  nextId : Nat := 0
deriving DecidableEq, Repr

/-- The events of an interleaved execution: a producer finishing a
`queue()` call, a `stop()` call, one step of the worker thread, or the
current submodule operation throwing `bailed` (caught in `thread_fun`, which
then returns). -/
inductive AEvent where
  | enqueue
  | stop
  | worker
  | workerFail
deriving DecidableEq, Repr

/--
One atomic step of the submodule-adder system (src/tools/git.cpp:740-815).
`enqueue` appends under the queue mutex and performs `wakeup()`; `stop` sets
the atomic quit flag and performs `wakeup()`; `worker` advances the worker
thread by one step: evaluating the loop condition, waking from the
condition-variable wait when `ready` holds (consuming `ready`), running the
`if (quit_) break` check and — when staying — swapping the whole queue into
a local batch, attempting the next batch item followed by the `if (quit_)
break` batch check, or finishing the batch.  `workerFail` is the step in
which the current batch item is attempted but throws `bailed`: the exception
unwinds `process()` and is caught at the top of `thread_fun`, which returns,
abandoning the batch remainder and the queue.
-/
def adderStep (s : AdderState) (e : AEvent) : AdderState :=
  match e with
  | .enqueue =>
    { s with queued := s.queued ++ [s.nextId], nextId := s.nextId + 1,
             ready := true }
  | .stop => { s with quit := true, ready := true }
  | .worker =>
    match s.phase with
    | .loopTop =>
      if s.quit then { s with phase := .stopped } else { s with phase := .sleeping }
    | .sleeping =>
      if s.ready then { s with ready := false, phase := .checkQuit } else s
    | .checkQuit =>
      if s.quit then { s with phase := .stopped }
      else { s with batch := s.queued, queued := [], phase := .running }
    | .running =>
      match s.batch with
      | [] => { s with phase := .loopTop }
      | g :: rest =>
        if s.quit then
          { s with processed := s.processed ++ [g], batch := [], phase := .loopTop }
        else
          { s with processed := s.processed ++ [g], batch := rest }
    | .stopped => s
  | .workerFail =>
    match s.phase, s.batch with
    | .running, g :: _ =>
      { s with processed := s.processed ++ [g], batch := [], phase := .stopped }
    | _, _ => s

/-- Runs an interleaved execution of the submodule-adder system from the
initial state (fresh instance: empty queue, worker about to test the loop
condition). -/
def adderRun (es : List AEvent) : AdderState :=
  es.foldl adderStep {}

/-- A repository state holding a single `origin` remote, as produced by a
fresh clone from the ModOrganizer2 org. -/
def repoOriginOnly : Repo :=
  { remotes := [("origin", "git@github.com:ModOrganizer2/modorganizer.git")] }

/-- Both non-interactivity overrides are present in an invocation's
environment. -/
def nonInteractive (p : process) : Prop :=
  envGet p.env "GCM_INTERACTIVE" = some "never" ∧
  envGet p.env "GIT_TERMINAL_PROMPT" = some "0"

/-- Invariant of the submodule-adder system: the attempted requests,
the in-flight batch remainder and the pending queue together form a
subsequence of the queued request identifiers in order, and the batch is
empty whenever the worker is not inside `process()`. -/
def AdderInv (s : AdderState) : Prop :=
  (s.processed ++ s.batch ++ s.queued).Sublist (List.range s.nextId) ∧
  (s.phase ≠ WPhase.running → s.batch = [])

/-- A wrapper-operation outcome is fatal when it is a bail. -/
def isFatal {α : Type} : Except Bail α → Bool
  | .error _ => true
  | .ok _ => false

/-- An invocation that does not allow failure runs to an `ok` exit exactly
when the exit code is 0; nonzero exit escalates. -/
theorem runExit_allow {p : process} (h : p.allowFailure = true) (e : Nat) :
    runExit p e = .ok e := by
  simp [runExit, h]

/-- Claim C8: every git process invocation built by the command layer, for
every subcommand and all parameters, carries the environment overrides
`GCM_INTERACTIVE=never` and `GIT_TERMINAL_PROMPT=0`, so no spawned git
process can block on interactive credential or terminal prompts. -/
theorem C8_every_invocation_non_interactive :
    ∀ (amb : Env) (root key value diff remote branch what file submodule url a b
        name : String) (shallow bb : Bool),
      nonInteractive (details.make_process amb) ∧
      nonInteractive (details.init amb root) ∧
      nonInteractive (details.set_config amb root key value) ∧
      nonInteractive (details.apply amb root diff) ∧
      nonInteractive (details.fetch amb root remote branch) ∧
      nonInteractive (details.checkout amb root what) ∧
      nonInteractive (details.revert amb root file) ∧
      nonInteractive (details.current_branch amb root) ∧
      nonInteractive (details.add_submodule amb root branch submodule url) ∧
      nonInteractive (details.clone amb root url branch shallow) ∧
      nonInteractive (details.pull amb root url branch) ∧
      nonInteractive (details.has_remote amb root name) ∧
      nonInteractive (details.rename_remote amb root a b) ∧
      nonInteractive (details.add_remote amb root name url) ∧
      nonInteractive (details.set_remote_push amb root remote url) ∧
      nonInteractive (details.set_assume_unchanged amb root file bb) ∧
      nonInteractive (details.is_tracked amb root file) ∧
      nonInteractive (details.is_repo amb root) ∧
      nonInteractive (details.remote_branch_exists amb url branch) ∧
      nonInteractive (details.has_uncommitted_changes amb root) ∧
      nonInteractive (details.has_stashed_changes amb root) ∧
      nonInteractive (details.remote_url amb root) := by
  intro amb root key value diff remote branch what file submodule url a b name
    shallow bb
  refine ⟨?_, ?_, ?_, ?_, ?_, ?_, ?_, ?_, ?_, ?_, ?_, ?_, ?_, ?_, ?_, ?_, ?_,
    ?_, ?_, ?_, ?_, ?_⟩
  all_goals first
    | exact ⟨rfl, rfl⟩
    | (cases shallow <;> exact ⟨rfl, rfl⟩)

/-- Claim C10: `has_uncommitted_changes()` returns true exactly when the
captured stdout of the status invocation is a nonempty string; the exit code
is ignored (the invocation allows failure), so a status command that fails
while producing no output reports no uncommitted changes. -/
theorem C10_has_uncommitted_changes_stdout_only :
    ∀ (amb : Env) (root : String) (r : Repo),
      (git_wrap.has_uncommitted_changes amb root r =
        (.ok (r.statusStdout != ""), r,
          [details.has_uncommitted_changes amb root])) ∧
      (r.statusExit ≠ 0 → r.statusStdout = "" →
        (git_wrap.has_uncommitted_changes amb root r).1 = .ok false) := by
  intro amb root r
  have ha : (details.has_uncommitted_changes amb root).allowFailure = true := rfl
  constructor
  · simp [git_wrap.has_uncommitted_changes, runExit_allow ha]
  · intro _ hout
    simp [git_wrap.has_uncommitted_changes, runExit_allow ha, hout]

/-- Claim C7: whenever the url or the root of a git tool is empty, `do_run`
fails fatally before any external process is spawned, whatever the selected
operation. -/
theorem C7_do_run_missing_parameters :
    ∀ (amb : Env) (g : gitTool) (r : Repo),
      g.url = "" ∨ g.root = "" →
      git.do_run amb g r = (.error ⟨"git missing parameters".data⟩, r, []) := by
  intro amb g r h
  unfold git.do_run
  rw [if_pos h]

/-- `find_last_of` finds no slash exactly when the string holds none. -/
theorem afterLastSlash_eq_none_iff (s : List Char) :
    afterLastSlash s = none ↔ '/' ∉ s := by
  induction s with
  | nil => simp [afterLastSlash]
  | cons c rest ih =>
    simp only [afterLastSlash]
    cases h : afterLastSlash rest with
    | some seg =>
      have : '/' ∈ rest := by
        by_contra hmem
        rw [ih.mpr hmem] at h
        cases h
      simp [this]
    | none =>
      by_cases hc : c = '/'
      · simp [hc]
      · have hcb : (c == '/') = false := by simpa using hc
        simp [hcb, ih.mp h, hc]
        exact fun heq => hc heq.symm

/-- Claim C5: `git_file()` returns the trimmed substring of the get-url
output after the last slash — on `git@github.com:org/modorganizer.git` it
yields `modorganizer.git` — and the parse fails fatally exactly when the
output is empty, holds no slash, or the trailing segment is empty after
trimming. -/
theorem C5_git_file_parse_spec :
    (git_wrap.git_file_parse "git@github.com:org/modorganizer.git".data =
      .ok "modorganizer.git".data) ∧
    (∀ (out seg : List Char), afterLastSlash out = some seg →
      trimCopy seg ≠ [] → git_wrap.git_file_parse out = .ok (trimCopy seg)) ∧
    (∀ out : List Char,
      (∃ b, git_wrap.git_file_parse out = .error b) ↔
        (out = [] ∨ '/' ∉ out ∨
          ∃ seg, afterLastSlash out = some seg ∧ trimCopy seg = [])) := by
  refine ⟨rfl, ?_, ?_⟩
  · intro out seg h hne
    simp [git_wrap.git_file_parse, h, hne]
  · intro out
    constructor
    · rintro ⟨b, hb⟩
      unfold git_wrap.git_file_parse at hb
      cases h : afterLastSlash out with
      | none =>
        exact Or.inr (Or.inl ((afterLastSlash_eq_none_iff out).mp h))
      | some seg =>
        rw [h] at hb
        by_cases he : trimCopy seg = []
        · exact Or.inr (Or.inr ⟨seg, rfl, he⟩)
        · simp [he] at hb
    · intro h
      rcases h with h | h | ⟨seg, hseg, he⟩
      · refine ⟨⟨"bad get-url output ".data⟩, ?_⟩
        subst h
        rfl
      · refine ⟨⟨"bad get-url output ".data ++ out⟩, ?_⟩
        unfold git_wrap.git_file_parse
        rw [(afterLastSlash_eq_none_iff out).mpr h]
      · refine ⟨⟨"bad get-url output ".data ++ out⟩, ?_⟩
        unfold git_wrap.git_file_parse
        rw [hseg]
        simp [he]

/-- Witness for C5: on the url `a/b` the segment after the last slash is
`b`, it survives trimming, and the parse returns it. -/
theorem C5_witness :
    git_wrap.git_file_parse "a/b".data = .ok (trimCopy ['b']) :=
  C5_git_file_parse_spec.2.1 "a/b".data ['b'] (by decide) (by decide)

/-- Claim C1: for a git repository, when the global `ignore_uncommitted`
override is unset, `git_wrap::delete_directory` checks uncommitted changes
first and stashed changes second, strictly before any deletion; either being
present bails out fatally with a message naming the remediation flag and
leaves the repository state untouched; the deletion action appears exactly
in the runs where both checks pass, the override is set, or the directory is
not a git repository. -/
theorem C1_delete_directory_safety :
    ∀ (amb : Env) (ig : Bool) (dir : String) (r : Repo),
      (r.isRepo = false →
        git_wrap.delete_directory amb ig dir r =
          (.ok (), deleteEffect r,
            [.proc (details.is_repo amb dir), .deleteDir dir])) ∧
      (r.isRepo = true → ig = true →
        git_wrap.delete_directory amb ig dir r =
          (.ok (), deleteEffect r,
            [.proc (details.is_repo amb dir), .deleteDir dir])) ∧
      (r.isRepo = true → ig = false → r.statusStdout ≠ "" →
        git_wrap.delete_directory amb ig dir r =
          (.error (uncommittedBail dir), r,
            [.proc (details.is_repo amb dir),
             .proc (details.has_uncommitted_changes amb dir)])) ∧
      (r.isRepo = true → ig = false → r.statusStdout = "" →
        r.stashExitZero = true →
        git_wrap.delete_directory amb ig dir r =
          (.error (stashedBail dir), r,
            [.proc (details.is_repo amb dir),
             .proc (details.has_uncommitted_changes amb dir),
             .proc (details.has_stashed_changes amb dir)])) ∧
      (r.isRepo = true → ig = false → r.statusStdout = "" →
        r.stashExitZero = false →
        git_wrap.delete_directory amb ig dir r =
          (.ok (), deleteEffect r,
            [.proc (details.is_repo amb dir),
             .proc (details.has_uncommitted_changes amb dir),
             .proc (details.has_stashed_changes amb dir),
             .deleteDir dir])) ∧
      (∃ u v, u ++ remediationFlag ++ v = (uncommittedBail dir).msg) ∧
      (∃ u v, u ++ remediationFlag ++ v = (stashedBail dir).msg) := by
  intro amb ig dir r
  have hsr : ∀ e, runExit (details.is_repo amb dir) e = .ok e :=
    fun e => runExit_allow rfl e
  have hsu : ∀ e, runExit (details.has_uncommitted_changes amb dir) e = .ok e :=
    fun e => runExit_allow rfl e
  have hss : ∀ e, runExit (details.has_stashed_changes amb dir) e = .ok e :=
    fun e => runExit_allow rfl e
  refine ⟨?_, ?_, ?_, ?_, ?_, ?_, ?_⟩
  · intro h
    simp [git_wrap.delete_directory, git_wrap.is_git_repo, hsr, h]
  · intro h hig
    simp [git_wrap.delete_directory, git_wrap.is_git_repo, hsr, h, hig]
  · intro h hig hout
    have hb : (r.statusStdout != "") = true := by simpa using hout
    simp [git_wrap.delete_directory, git_wrap.is_git_repo,
      git_wrap.has_uncommitted_changes, hsr, hsu, h, hig, hb]
  · intro h hig hout hst
    simp [git_wrap.delete_directory, git_wrap.is_git_repo,
      git_wrap.has_uncommitted_changes, git_wrap.has_stashed_changes,
      hsr, hsu, hss, h, hig, hout, hst]
  · intro h hig hout hst
    simp [git_wrap.delete_directory, git_wrap.is_git_repo,
      git_wrap.has_uncommitted_changes, git_wrap.has_stashed_changes,
      hsr, hsu, hss, h, hig, hout, hst]
  · exact ⟨"will not delete ".data ++ dir.data ++
      ", has uncommitted changes; see ".data, [],
      by simp [uncommittedBail, List.append_assoc]⟩
  · exact ⟨"will not delete ".data ++ dir.data ++
      ", has stashed changes; see ".data, [],
      by simp [stashedBail, List.append_assoc]⟩

/-- Witness for C1: on a concrete repository with uncommitted changes and
the override unset, deletion is refused, the state is untouched and no
deletion action was emitted. -/
theorem C1_witness :
    git_wrap.delete_directory [] false "mo"
        { statusStdout := "M f.txt", files := [] } =
      (.error (uncommittedBail "mo"), { statusStdout := "M f.txt", files := [] },
        [.proc (details.is_repo [] "mo"),
         .proc (details.has_uncommitted_changes [] "mo")]) :=
  (C1_delete_directory_safety [] false "mo"
      { statusStdout := "M f.txt", files := [] }).2.2.1 rfl rfl (by decide)

/-- Claim C2 (refuted by the code): `std::optional::value_or` evaluates its
argument eagerly, so `git_wrap::add_remote` runs `git_file()` — spawning
`git remote get-url origin` — even when an explicit git file is supplied.
On a freshly cloned repository, `set_origin_and_upstream_remotes` therefore
spawns the get-url invocation twice: once legitimately before the rename,
and once more from inside `add_remote` after `origin` was renamed away,
where the lookup fails and the whole operation bails out instead of adding
the new `origin` remote. -/
theorem C2_add_remote_performs_second_lookup :
    ((git_wrap.set_origin_and_upstream_remotes [] "mo" "dev" "" false false
        repoOriginOnly).2.2.count (details.remote_url [] "mo")) = 2 ∧
    isFatal (git_wrap.set_origin_and_upstream_remotes [] "mo" "dev" "" false false
        repoOriginOnly).1 = true ∧
    ((git_wrap.set_origin_and_upstream_remotes [] "mo" "dev" "" false false
        repoOriginOnly).2.1.remotes.filter (fun q => q.1 == "origin")).length
      = 0 := by
  decide

/-- Claim C3 (refuted by the code): on a freshly cloned repository the first
`set_origin_and_upstream_remotes` call bails out (because of the eager
`git_file()` lookup inside `add_remote` after the rename), so calling the
operation twice is not error-free.  The second call, run on the state the
first left behind, is indeed a silent no-op — it only probes for the
`upstream` remote — and exactly one `upstream` remote exists afterwards. -/
theorem C3_set_origin_twice_first_call_errors :
    isFatal (git_wrap.set_origin_and_upstream_remotes [] "mo" "dev" "" false false
        repoOriginOnly).1 = true ∧
    isFatal (git_wrap.set_origin_and_upstream_remotes [] "mo" "dev" "" false false
        (git_wrap.set_origin_and_upstream_remotes [] "mo" "dev" "" false false
          repoOriginOnly).2.1).1 = false ∧
    (git_wrap.set_origin_and_upstream_remotes [] "mo" "dev" "" false false
        (git_wrap.set_origin_and_upstream_remotes [] "mo" "dev" "" false false
          repoOriginOnly).2.1).2.2 = [details.has_remote [] "mo" "upstream"] ∧
    (((git_wrap.set_origin_and_upstream_remotes [] "mo" "dev" "" false false
        repoOriginOnly).2.1).remotes.filter (fun q => q.1 == "upstream")).length
      = 1 := by
  decide

/-- The `has_remote` probe does not change the repository state. -/
theorem has_remote_state (amb : Env) (root name : String) (r : Repo) :
    (git_wrap.has_remote amb root name r).2.1 = r := by
  simp only [git_wrap.has_remote]
  split <;> rfl

/-- `git_file` does not change the repository state. -/
theorem git_file_state (amb : Env) (root : String) (r : Repo) :
    (git_wrap.git_file amb root r).2.1 = r := by
  simp only [git_wrap.git_file]
  split <;> (try split) <;> rfl

/-- Renaming a remote does not touch the `.git` marker. -/
theorem rename_remote_dotGit (amb : Env) (root a b : String) (r : Repo) :
    (git_wrap.rename_remote amb root a b r).2.1.dotGitExists = r.dotGitExists := by
  simp only [git_wrap.rename_remote]
  split <;> rfl

/-- Setting a push url does not touch the `.git` marker. -/
theorem set_remote_push_dotGit (amb : Env) (root remote url : String) (r : Repo) :
    (git_wrap.set_remote_push amb root remote url r).2.1.dotGitExists =
      r.dotGitExists := rfl

/-- Setting a configuration value does not touch the `.git` marker. -/
theorem set_config_dotGit (amb : Env) (root key value : String) (r : Repo) :
    (git_wrap.set_config amb root key value r).2.1.dotGitExists =
      r.dotGitExists := rfl

/-- Adding a remote does not touch the `.git` marker. -/
theorem add_remote_dotGit (amb : Env) (root name org key : String) (pd : Bool)
    (up : Option (String → String → String)) (ogf : Option String) (r : Repo) :
    (git_wrap.add_remote amb root name org key pd up ogf r).2.1.dotGitExists =
      r.dotGitExists := by
  simp only [git_wrap.add_remote]
  split
  · rename_i b r0 t0 heq
    have h0 : r0 = r := by
      have h := git_file_state amb root r
      rw [heq] at h
      exact h
    rw [show ((Except.error b : Except Bail Unit), r0, t0).2.1 = r0 from rfl, h0]
  · rename_i lu r0 t0 heq
    have h0 : r0 = r := by
      have h := git_file_state amb root r
      rw [heq] at h
      exact h
    split
    · rename_i b r1 t1 heq1
      have h1 : r1 = r0 := by
        have h := has_remote_state amb root name r0
        rw [heq1] at h
        exact h
      simp [h0, h1]
    · rename_i r1 t1 heq1
      have h1 : r1 = r0 := by
        have h := has_remote_state amb root name r0
        rw [heq1] at h
        exact h
      simp [h0, h1]
    · rename_i r1 t1 heq1
      have h1 : r1 = r0 := by
        have h := has_remote_state amb root name r0
        rw [heq1] at h
        exact h
      split
      · rename_i b r3 t3 heq3
        revert heq3
        split <;> intro heq3
        · cases heq3
        · cases heq3
      · rename_i u3 r3 t3 heq3
        have h3 : r3.dotGitExists = r1.dotGitExists := by
          revert heq3
          split <;> intro heq3 <;> cases heq3 <;> rfl
        split
        · rename_i b r4 t4 heq4
          revert heq4
          split <;> intro heq4
          · cases heq4
          · cases heq4
        · rename_i u4 r4 t4 heq4
          have h4 : r4.dotGitExists = r3.dotGitExists := by
            revert heq4
            split <;> intro heq4 <;> cases heq4 <;> rfl
          simp [h4, h3, h1, h0]

/-- The origin/upstream rewrite does not touch the `.git` marker. -/
theorem set_origin_dotGit (amb : Env) (root org key : String) (np pd : Bool)
    (r : Repo) :
    (git_wrap.set_origin_and_upstream_remotes amb root org key np pd
        r).2.1.dotGitExists = r.dotGitExists := by
  simp only [git_wrap.set_origin_and_upstream_remotes]
  split
  · rename_i b r0 t0 heq
    have h0 : r0 = r := by
      have h := has_remote_state amb root "upstream" r
      rw [heq] at h
      exact h
    rw [show ((Except.error b : Except Bail Unit), r0, t0).2.1 = r0 from rfl, h0]
  · rename_i r0 t0 heq
    have h0 : r0 = r := by
      have h := has_remote_state amb root "upstream" r
      rw [heq] at h
      exact h
    rw [show ((Except.ok () : Except Bail Unit), r0, t0).2.1 = r0 from rfl, h0]
  · rename_i r0 t0 heq
    have h0 : r0 = r := by
      have h := has_remote_state amb root "upstream" r
      rw [heq] at h
      exact h
    split
    · rename_i b r1 t1 heq1
      have h1 : r1 = r0 := by
        have h := git_file_state amb root r0
        rw [heq1] at h
        exact h
      rw [show ((Except.error b : Except Bail Unit), r1, t0 ++ t1).2.1 = r1 from rfl,
        h1, h0]
    · rename_i gf r1 t1 heq1
      have h1 : r1 = r0 := by
        have h := git_file_state amb root r0
        rw [heq1] at h
        exact h
      split
      · rename_i b r2 t2 heq2
        have h2 : r2.dotGitExists = r1.dotGitExists := by
          have h := rename_remote_dotGit amb root "origin" "upstream" r1
          rw [heq2] at h
          exact h
        simp [h2, h1, h0]
      · rename_i r2 t2 heq2
        have h2 : r2.dotGitExists = r1.dotGitExists := by
          have h := rename_remote_dotGit amb root "origin" "upstream" r1
          rw [heq2] at h
          exact h
        split
        · rename_i b r3 t3 heq3
          have h3 : r3.dotGitExists = r2.dotGitExists := by
            revert heq3
            split <;> intro heq3 <;> cases heq3
          exact h3.trans (h2.trans (by rw [h1, h0]))
        · rename_i r3 t3 heq3
          have h3 : r3.dotGitExists = r2.dotGitExists := by
            revert heq3
            split <;> intro heq3 <;> cases heq3 <;> rfl
          split
          · rename_i b r4 t4 heq4
            have h4 : r4.dotGitExists = r3.dotGitExists := by
              have h := add_remote_dotGit amb root "origin" org key pd none
                (some (String.mk gf)) r3
              rw [heq4] at h
              exact h
            exact h4.trans (h3.trans (h2.trans (by rw [h1, h0])))
          · rename_i r4 t4 heq4
            have h4 : r4.dotGitExists = r3.dotGitExists := by
              have h := add_remote_dotGit amb root "origin" org key pd none
                (some (String.mk gf)) r3
              rw [heq4] at h
              exact h
            exact h4.trans (h3.trans (h2.trans (by rw [h1, h0])))

/-- Setting credentials does not touch the `.git` marker. -/
theorem set_credentials_dotGit (amb : Env) (root u e : String) (r : Repo) :
    (git_wrap.set_credentials amb root u e r).2.1.dotGitExists =
      r.dotGitExists := by
  simp only [git_wrap.set_credentials]
  split
  · rename_i b r0 t0 heq
    have h0 : r0.dotGitExists = r.dotGitExists := by
      revert heq
      split <;> intro heq
      · have hc : (git_wrap.set_config amb root "user.name" u r).2.1.dotGitExists
            = r0.dotGitExists := by rw [heq]
        rw [set_config_dotGit] at hc
        exact hc.symm
      · cases heq
    exact h0
  · rename_i r0 t0 heq
    have h0 : r0.dotGitExists = r.dotGitExists := by
      revert heq
      split <;> intro heq
      · have hc : (git_wrap.set_config amb root "user.name" u r).2.1.dotGitExists
            = r0.dotGitExists := by rw [heq]
        rw [set_config_dotGit] at hc
        exact hc.symm
      · cases heq
        rfl
    split
    · rename_i b r1 t1 heq1
      have h1 : r1.dotGitExists = r0.dotGitExists := by
        revert heq1
        split <;> intro heq1
        · have hc : (git_wrap.set_config amb root "user.email" e
              r0).2.1.dotGitExists = r1.dotGitExists := by rw [heq1]
          rw [set_config_dotGit] at hc
          exact hc.symm
        · cases heq1
      exact h1.trans h0
    · rename_i r1 t1 heq1
      have h1 : r1.dotGitExists = r0.dotGitExists := by
        revert heq1
        split <;> intro heq1
        · have hc : (git_wrap.set_config amb root "user.email" e
              r0).2.1.dotGitExists = r1.dotGitExists := by rw [heq1]
          rw [set_config_dotGit] at hc
          exact hc.symm
        · cases heq1
          rfl
      exact h1.trans h0

/-- `ignore_ts` leaves the repository state unchanged. -/
theorem ignore_ts_state (amb : Env) (root : String) (b : Bool) (r : Repo) :
    (git_wrap.ignore_ts amb root b r).2.1 = r := rfl

/-- After `do_clone` the `.git` marker exists: either it already existed
(the no-op path) or the clone created it and no later step removes it. -/
theorem do_clone_dotGit (amb : Env) (g : gitTool) (r : Repo) :
    (git.do_clone amb g r).2.1.dotGitExists = true := by
  cases hdg : r.dotGitExists with
  | true => simp [git.do_clone, hdg]
  | false =>
    simp only [git.do_clone, hdg, Bool.false_eq_true, if_false, git_wrap.clone]
    have h0 : (git_wrap.clonedRepo g.url r).dotGitExists = true := rfl
    split
    · rename_i b r1 t1 heq
      have h1 : r1.dotGitExists = true := by
        revert heq
        split <;> intro heq
        · have hc : (git_wrap.set_credentials amb g.root g.credsUsername
              g.credsEmail (git_wrap.clonedRepo g.url r)).2.1.dotGitExists
              = r1.dotGitExists := by rw [heq]
          rw [set_credentials_dotGit] at hc
          exact hc.symm.trans h0
        · cases heq
      exact h1
    · rename_i r1 t1 heq
      have h1 : r1.dotGitExists = true := by
        revert heq
        split <;> intro heq
        · have hc : (git_wrap.set_credentials amb g.root g.credsUsername
              g.credsEmail (git_wrap.clonedRepo g.url r)).2.1.dotGitExists
              = r1.dotGitExists := by rw [heq]
          rw [set_credentials_dotGit] at hc
          exact hc.symm.trans h0
        · cases heq
          exact h0
      split
      · rename_i b r2 t2 heq2
        have h2 : r2.dotGitExists = r1.dotGitExists := by
          revert heq2
          split <;> intro heq2
          · have hc : (git_wrap.set_origin_and_upstream_remotes amb g.root
                g.remoteOrg g.remoteKey g.noPushUpstream g.pushDefaultOrigin
                r1).2.1.dotGitExists = r2.dotGitExists := by rw [heq2]
            rw [set_origin_dotGit] at hc
            exact hc.symm
          · cases heq2
        exact h2.trans h1
      · rename_i r2 t2 heq2
        have h2 : r2.dotGitExists = r1.dotGitExists := by
          revert heq2
          split <;> intro heq2
          · have hc : (git_wrap.set_origin_and_upstream_remotes amb g.root
                g.remoteOrg g.remoteKey g.noPushUpstream g.pushDefaultOrigin
                r1).2.1.dotGitExists = r2.dotGitExists := by rw [heq2]
            rw [set_origin_dotGit] at hc
            exact hc.symm
          · cases heq2
            rfl
        split
        · rename_i b r3 t3 heq3
          have h3 : r3.dotGitExists = r2.dotGitExists := by
            revert heq3
            split <;> intro heq3
            · cases heq3
            · cases heq3
          exact h3.trans (h2.trans h1)
        · rename_i r3 t3 heq3
          have h3 : r3.dotGitExists = r2.dotGitExists := by
            revert heq3
            split <;> intro heq3
            · cases heq3
              rfl
            · cases heq3
              rfl
          exact h3.trans (h2.trans h1)

/-- Claim C6: when the `.git` marker already exists at the configured root,
the clone operation spawns no git process and succeeds silently rather than
erroring; repeated clone invocations therefore perform the clone at most
once (after any run of the clone operation the marker exists, and a clone
run on a marked root is a spawn-free no-op); and under `clone_or_pull` the
no-op outcome makes the run fall through to the pull. -/
theorem C6_clone_idempotent_and_fallthrough :
    ∀ (amb : Env) (g : gitTool) (r : Repo),
      (r.dotGitExists = true →
        git.do_clone amb g r = (.ok false, r, [])) ∧
      (g.op = ops.clone → g.url ≠ "" → g.root ≠ "" → r.dotGitExists = true →
        git.do_run amb g r = (.ok (), r, [])) ∧
      (g.op = ops.clone → g.url ≠ "" → g.root ≠ "" →
        (git.do_run amb g r).2.1.dotGitExists = true) ∧
      (g.op = ops.clone_or_pull → g.url ≠ "" → g.root ≠ "" →
        r.dotGitExists = true →
        git.do_run amb g r = git.do_pull amb g r) := by
  intro amb g r
  refine ⟨?_, ?_, ?_, ?_⟩
  · intro hdg
    simp [git.do_clone, hdg]
  · intro hop hu hr hdg
    have hnoop : git.do_clone amb g r = (.ok false, r, []) := by
      simp [git.do_clone, hdg]
    simp [git.do_run, hop, hu, hr, hnoop]
  · intro hop hu hr
    simp only [git.do_run, hop]
    rw [if_neg (by simp [hu, hr])]
    split
    · rename_i b r0 t0 heq
      have h := do_clone_dotGit amb g r
      rw [heq] at h
      exact h
    · rename_i r0 t0 heq
      have h := do_clone_dotGit amb g r
      rw [heq] at h
      exact h
  · intro hop hu hr hdg
    have hnoop : git.do_clone amb g r = (.ok false, r, []) := by
      simp [git.do_clone, hdg]
    simp only [git.do_run, hop]
    rw [if_neg (by simp [hu, hr])]
    rw [hnoop]
    rcases hdp : git.do_pull amb g r with ⟨res, r1, t1⟩
    cases res with
    | error b => simp [hdp]
    | ok u =>
      cases u
      simp [hdp]

/-- Witness for C6: a `clone_or_pull` tool on a root whose `.git` marker
exists runs exactly the pull. -/
theorem C6_witness :
    git.do_run [] { op := ops.clone_or_pull, url := "u", root := "d" } {} =
      git.do_pull [] { op := ops.clone_or_pull, url := "u", root := "d" } {} :=
  (C6_clone_idempotent_and_fallthrough []
      { op := ops.clone_or_pull, url := "u", root := "d" } {}).2.2.2 rfl
    (by decide) (by decide) rfl

/-- An update-index toggle invocation is never the tracking probe. -/
theorem set_assume_ne_is_tracked (amb : Env) (root f g : String) (b : Bool) :
    details.set_assume_unchanged amb root f b ≠ details.is_tracked amb root g := by
  intro h
  have h2 := congrArg process.args h
  simp [details.set_assume_unchanged, details.is_tracked, process.arg,
    process.cwd, process.flags, process.stdout_level, process.stderr_level,
    details.make_process] at h2

/-- Two update-index toggle invocations agree only on the same file. -/
theorem set_assume_inj (amb : Env) (root f g : String) (b c : Bool)
    (h : details.set_assume_unchanged amb root f b =
      details.set_assume_unchanged amb root g c) : f = g := by
  have h2 := congrArg process.args h
  simp [details.set_assume_unchanged, process.arg, process.cwd,
    details.make_process] at h2
  exact h2.2

/-- A checkout revert invocation is never the tracking probe. -/
theorem revert_ne_is_tracked (amb : Env) (root f g : String) :
    details.revert amb root f ≠ details.is_tracked amb root g := by
  intro h
  have h2 := congrArg process.args h
  simp [details.revert, details.is_tracked, process.arg, process.cwd,
    process.flags, process.stdout_level, process.stderr_level,
    details.make_process] at h2

/-- Two checkout revert invocations agree only on the same file. -/
theorem revert_inj (amb : Env) (root f g : String)
    (h : details.revert amb root f = details.revert amb root g) : f = g := by
  have h2 := congrArg process.args h
  simp [details.revert, process.arg, process.cwd, process.stderr_level,
    details.make_process] at h2
  exact h2

/-- Every update-index toggle in the `ignore_ts` trace targets a tracked
relative path of one of the visited entries. -/
theorem mem_ignoreTsTrace (amb : Env) (root f : String) (tracked : List String)
    (b c : Bool) (es : List FileEntry) :
    details.set_assume_unchanged amb root f c ∈
        git_wrap.ignoreTsTrace amb root tracked b es →
      f ∈ tracked ∧ ∃ e, e ∈ es ∧ e.rel = f := by
  induction es with
  | nil => intro h; cases h
  | cons e rest ih =>
    intro h
    rcases List.mem_cons.mp h with heq | h2
    · exact absurd heq (set_assume_ne_is_tracked amb root f e.rel c)
    · rcases List.mem_append.mp h2 with h3 | h4
      · by_cases ht : e.rel ∈ tracked
        · rw [if_pos ht] at h3
          have hf : f = e.rel := set_assume_inj amb root f e.rel c b
            (List.mem_singleton.mp h3)
          exact ⟨hf ▸ ht, e, List.mem_cons_self e rest, hf.symm⟩
        · rw [if_neg ht] at h3
          cases h3
      · rcases ih h4 with ⟨h5, e2, he2, hr⟩
        exact ⟨h5, e2, List.mem_cons_of_mem e he2, hr⟩

/-- Every visited entry whose relative path is tracked receives its
update-index toggle. -/
theorem set_assume_mem_ignoreTsTrace (amb : Env) (root : String)
    (tracked : List String) (b : Bool) (es : List FileEntry) :
    ∀ e, e ∈ es → e.rel ∈ tracked →
      details.set_assume_unchanged amb root e.rel b ∈
        git_wrap.ignoreTsTrace amb root tracked b es := by
  induction es with
  | nil => intro e he; cases he
  | cons x rest ih =>
    intro e he ht
    rcases List.mem_cons.mp he with rfl | hmem
    · refine List.mem_cons_of_mem _ (List.mem_append.mpr (Or.inl ?_))
      rw [if_pos ht]
      exact List.mem_singleton.mpr rfl
    · exact List.mem_cons_of_mem _ (List.mem_append.mpr (Or.inr (ih e hmem ht)))

/-- Every checkout in the `revert_ts` trace targets the absolute path of a
visited entry whose relative path is tracked. -/
theorem mem_revertTsTrace (amb : Env) (root a : String) (tracked : List String)
    (es : List FileEntry) :
    details.revert amb root a ∈ git_wrap.revertTsTrace amb root tracked es →
      ∃ e, e ∈ es ∧ e.abs = a ∧ e.rel ∈ tracked := by
  induction es with
  | nil => intro h; cases h
  | cons e rest ih =>
    intro h
    rcases List.mem_cons.mp h with heq | h2
    · exact absurd heq (revert_ne_is_tracked amb root a e.rel)
    · rcases List.mem_append.mp h2 with h3 | h4
      · by_cases ht : e.rel ∈ tracked
        · rw [if_pos ht] at h3
          have hf : a = e.abs := revert_inj amb root a e.abs
            (List.mem_singleton.mp h3)
          exact ⟨e, List.mem_cons_self e rest, hf.symm, ht⟩
        · rw [if_neg ht] at h3
          cases h3
      · rcases ih h4 with ⟨e2, he2, ha, hr⟩
        exact ⟨e2, List.mem_cons_of_mem e he2, ha, hr⟩

/-- Claim C9: `ignore_ts(b)` visits exactly the regular files whose
extension ends in ".ts"; it toggles the assume-unchanged index flag exactly
on the visited files that git tracks; files that are not tracked are never
the target of an update-index toggle or of a `revert_ts` checkout, and the
repository state is left unchanged. -/
theorem C9_ignore_ts_only_tracked :
    ∀ (amb : Env) (root : String) (r : Repo) (b c : Bool) (f a : String)
      (e : FileEntry),
      (e ∈ git_wrap.tsEntries r.files ↔
        e ∈ r.files ∧ e.regular = true ∧
          List.isSuffixOf ".ts".data e.ext = true) ∧
      (e ∈ git_wrap.tsEntries r.files → e.rel ∈ r.tracked →
        details.set_assume_unchanged amb root e.rel b ∈
          (git_wrap.ignore_ts amb root b r).2.2) ∧
      (details.set_assume_unchanged amb root f c ∈
          (git_wrap.ignore_ts amb root b r).2.2 →
        f ∈ r.tracked ∧ ∃ e2, e2 ∈ git_wrap.tsEntries r.files ∧ e2.rel = f) ∧
      (f ∉ r.tracked →
        details.set_assume_unchanged amb root f c ∉
          (git_wrap.ignore_ts amb root b r).2.2) ∧
      (details.revert amb root a ∈ (git_wrap.revert_ts amb root r).2.2 →
        ∃ e2, e2 ∈ git_wrap.tsEntries r.files ∧ e2.abs = a ∧
          e2.rel ∈ r.tracked) ∧
      (git_wrap.ignore_ts amb root b r).2.1 = r ∧
      (git_wrap.revert_ts amb root r).2.1 = r := by
  intro amb root r b c f a e
  refine ⟨?_, ?_, ?_, ?_, ?_, rfl, rfl⟩
  · simp [git_wrap.tsEntries, List.mem_filter]
  · intro he ht
    exact set_assume_mem_ignoreTsTrace amb root r.tracked b
      (git_wrap.tsEntries r.files) e he ht
  · intro h
    exact mem_ignoreTsTrace amb root f r.tracked b c
      (git_wrap.tsEntries r.files) h
  · intro hnt h
    exact hnt (mem_ignoreTsTrace amb root f r.tracked b c
      (git_wrap.tsEntries r.files) h).1
  · intro h
    exact mem_revertTsTrace amb root a r.tracked (git_wrap.tsEntries r.files) h

/-- Witness for C9: on a tree with one tracked and one untracked .ts file,
the untracked file is never the target of an update-index toggle. -/
theorem C9_witness :
    details.set_assume_unchanged [] "w" "b.ts" true ∉
      (git_wrap.ignore_ts [] "w" true
        { files := [⟨"/w/a.ts", "a.ts", true, ".ts".data⟩,
                    ⟨"/w/b.ts", "b.ts", true, ".ts".data⟩],
          tracked := ["a.ts"] }).2.2 :=
  (C9_ignore_ts_only_tracked [] "w"
      { files := [⟨"/w/a.ts", "a.ts", true, ".ts".data⟩,
                  ⟨"/w/b.ts", "b.ts", true, ".ts".data⟩],
        tracked := ["a.ts"] } true true "b.ts" ""
      ⟨"", "", false, []⟩).2.2.2.1 (by decide)

/-- Every step of the submodule-adder system preserves the invariant. -/
theorem adderStep_inv : ∀ (s : AdderState) (e : AEvent),
    AdderInv s → AdderInv (adderStep s e)
  | ⟨q, bt, pr, rd, qt, ph, n⟩, e, ⟨h1, h2⟩ => by
    cases e with
    | enqueue =>
      refine ⟨?_, fun hp => h2 hp⟩
      show (pr ++ bt ++ (q ++ [n])).Sublist (List.range (n + 1))
      rw [List.range_succ]
      have heq : pr ++ bt ++ (q ++ [n]) = (pr ++ bt ++ q) ++ [n] := by
        simp [List.append_assoc]
      rw [heq]
      exact h1.append (List.Sublist.refl [n])
    | stop => exact ⟨h1, h2⟩
    | worker =>
      cases ph with
      | loopTop =>
        cases qt with
        | true => exact ⟨h1, fun _ => h2 (by intro hx; cases hx)⟩
        | false => exact ⟨h1, fun _ => h2 (by intro hx; cases hx)⟩
      | sleeping =>
        cases rd with
        | true => exact ⟨h1, fun _ => h2 (by intro hx; cases hx)⟩
        | false => exact ⟨h1, h2⟩
      | checkQuit =>
        cases qt with
        | true => exact ⟨h1, fun _ => h2 (by intro hx; cases hx)⟩
        | false =>
          have hbt : bt = [] := h2 (by intro hx; cases hx)
          subst hbt
          refine ⟨?_, fun hh => absurd rfl hh⟩
          show (pr ++ q ++ []).Sublist (List.range n)
          simpa using h1
      | running =>
        cases bt with
        | nil => exact ⟨h1, fun _ => rfl⟩
        | cons g rest =>
          cases qt with
          | true =>
            refine ⟨?_, fun _ => rfl⟩
            show ((pr ++ [g]) ++ [] ++ q).Sublist (List.range n)
            have hsub : ((pr ++ [g]) ++ [] ++ q).Sublist (pr ++ (g :: rest) ++ q) := by
              simp only [List.append_nil, List.append_assoc, List.singleton_append]
              exact (List.sublist_append_right rest q).cons₂ g |>.append_left pr
            exact hsub.trans h1
          | false =>
            refine ⟨?_, fun hh => absurd rfl hh⟩
            show ((pr ++ [g]) ++ rest ++ q).Sublist (List.range n)
            have heq : (pr ++ [g]) ++ rest ++ q = pr ++ (g :: rest) ++ q := by
              simp [List.append_assoc]
            rw [heq]
            exact h1
      | stopped => exact ⟨h1, h2⟩
    | workerFail =>
      cases ph with
      | running =>
        cases bt with
        | nil => exact ⟨h1, h2⟩
        | cons g rest =>
          refine ⟨?_, fun _ => rfl⟩
          show ((pr ++ [g]) ++ [] ++ q).Sublist (List.range n)
          have hsub : ((pr ++ [g]) ++ [] ++ q).Sublist (pr ++ (g :: rest) ++ q) := by
            simp only [List.append_nil, List.append_assoc, List.singleton_append]
            exact (List.sublist_append_right rest q).cons₂ g |>.append_left pr
          exact hsub.trans h1
      | loopTop => exact ⟨h1, h2⟩
      | sleeping => exact ⟨h1, h2⟩
      | checkQuit => exact ⟨h1, h2⟩
      | stopped => exact ⟨h1, h2⟩

/-- The invariant holds after every interleaved execution from the initial
state. -/
theorem adderRun_inv (es : List AEvent) : AdderInv (adderRun es) := by
  have h : ∀ (l : List AEvent) (s : AdderState),
      AdderInv s → AdderInv (l.foldl adderStep s) := by
    intro l
    induction l with
    | nil => intro s hs; exact hs
    | cons e rest ih => intro s hs; exact ih (adderStep s e) (adderStep_inv s e hs)
  exact h es {} ⟨by simp, fun _ => rfl⟩

/-- Claim C4 (as stated, refuted): a request queued by a producer, followed
by `stop()`, followed by the worker waking: the worker observes the quit
flag and exits — a join now completes — while the queued request was never
attempted.  "Every queued request is attempted exactly once after stop and
join" is therefore false on the code. -/
theorem C4_counterexample :
    (adderRun [.enqueue, .stop, .worker]).phase = WPhase.stopped ∧
    (adderRun [.enqueue, .stop, .worker]).nextId = 1 ∧
    (adderRun [.enqueue, .stop, .worker]).processed = [] ∧
    ¬ (∀ i, i < (adderRun [.enqueue, .stop, .worker]).nextId →
        i ∈ (adderRun [.enqueue, .stop, .worker]).processed) := by
  decide

/-- Claim C4 (amended): in every interleaved execution with any number of
`queue()` calls, `stop()` calls, worker steps and worker failures, the
attempted requests form a subsequence of the queued requests in queue
order — every attempted request was queued, no request is attempted more
than once, and attempts respect the queue order; requests still pending
when the worker observes the quit flag are abandoned, so "exactly once"
weakens to "at most once". -/
theorem C4_amended_at_most_once_in_order :
    ∀ es : List AEvent,
      ((adderRun es).processed).Sublist (List.range (adderRun es).nextId) ∧
      ((adderRun es).processed).Nodup := by
  intro es
  have h := (adderRun_inv es).1
  have hsub := List.sublist_append_left ((adderRun es).processed)
    ((adderRun es).batch ++ (adderRun es).queued)
  rw [← List.append_assoc] at hsub
  exact ⟨hsub.trans h, ((List.nodup_range _).sublist (hsub.trans h))⟩

/-- Witness for C7: a pull tool with no url configured bails out with an
empty trace. -/
theorem C7_witness :
    git.do_run [] { op := ops.pull } {} =
      (.error ⟨"git missing parameters".data⟩, {}, []) :=
  C7_do_run_missing_parameters [] { op := ops.pull } {} (Or.inl rfl)

/-- Witness for C10: a status invocation that exits nonzero while producing
no output reports no uncommitted changes. -/
theorem C10_witness :
    (git_wrap.has_uncommitted_changes [] "d" { statusExit := 1 }).1 =
      .ok false :=
  (C10_has_uncommitted_changes_stdout_only [] "d" { statusExit := 1 }).2
    (by decide) rfl
